import Mathlib

/-!
Verification of the order-reconciliation core of the Delta Exchange trading
bot (`haider_bot`): the quantizer and client-order-id generator
(`haider_bot/utils.py`), the strategy engine
(`haider_bot/core/strategy.py`), and the reconciliation engine
(`sync_intents` in `haider_bot/main.py`).

Prices and quantities are Python floats in the source; here they are embedded
as exact rationals (`ℚ`).  The two places where the source performs an
explicit rounding step — Python's `round` (round-half-to-even) and the
10-decimal re-formatting `float(f"{x:.10f}")` — are modelled exactly by
`rhe` and `fmt10` below.  Binary floating-point representation error is not
modelled; every arithmetic step the source writes is carried out exactly.
-/

namespace HaiderBot

/-- Round-half-to-even on an exact rational, modelling Python's builtin
`round(x)` on a number (banker's rounding: exact ties go to the even
integer). -/
def rhe (q : ℚ) : ℤ :=
  if q - ⌊q⌋ < 1/2 then ⌊q⌋
  else if 1/2 < q - ⌊q⌋ then ⌊q⌋ + 1
  else if ⌊q⌋ % 2 = 0 then ⌊q⌋ else ⌊q⌋ + 1

/-- Truncation toward zero, modelling Python's `int(...)` applied to a
number. -/
def pyInt (q : ℚ) : ℤ := if 0 ≤ q then ⌊q⌋ else -⌊-q⌋

/-- Rounding to 10 decimal places (ties to even), modelling the
`float(f"{value:.10f}")` normalisation used by `round_price` and
`round_qty` in `haider_bot/utils.py`. -/
def fmt10 (x : ℚ) : ℚ := (rhe (x * 10^10) : ℚ) / 10^10

/-- Python's `str.upper()` on the ASCII strings the bot uses. -/
def pyUpper (s : String) : String := ⟨s.data.map Char.toUpper⟩

/-- Python's `str.lower()` on the ASCII strings the bot uses. -/
def pyLower (s : String) : String := ⟨s.data.map Char.toLower⟩

/-- Python's `s.startswith(pre)`. -/
def pyStartswith (s pre : String) : Bool := pre.data.isPrefixOf s.data

/-- Python's `a or b` for an optional number `a`: `None` and `0.0` are
falsy, any other number is returned as-is. -/
def pyOrOpt (a : Option ℚ) (b : ℚ) : ℚ :=
  match a with
  | none => b
  | some x => if x = 0 then b else x

/-- `utils.gen_target_coid`: deterministic client_order_id for a target,
`HAIDER-{ENV}-{TYPE}-{SIDE}-P{product_id}-T{ticks}` with
`ticks = int(round(price / tick_size))` when `tick_size > 0` and the
fallback `int(round(price))` otherwise. -/
def gen_target_coid (env typ side : String) (product_id : ℤ)
    (price tick_size : ℚ) : String :=
  let ticks : ℤ := if 0 < tick_size then rhe (price / tick_size) else rhe price
  "HAIDER-" ++ pyUpper env ++ "-" ++ pyUpper typ ++ "-" ++ pyUpper side ++
    "-P" ++ toString product_id ++ "-T" ++ toString ticks

/-- `utils.round_price`: identity for `tick_size <= 0`, otherwise round to
the nearest tick and re-format to 10 decimal places. -/
def round_price (price tick_size : ℚ) : ℚ :=
  if tick_size ≤ 0 then price
  else fmt10 ((rhe (price / tick_size) : ℚ) * tick_size)

/-- `utils.round_qty`: identity for `step <= 0`, otherwise floor to the step
(`n = int(qty / step)`) and re-format to 10 decimal places. -/
def round_qty (qty step : ℚ) : ℚ :=
  if step ≤ 0 then qty
  else fmt10 ((pyInt (qty / step) : ℚ) * step)

/-! ## Strategy engine (`haider_bot/core/strategy.py`) -/

/-- `Position.side` in `core/strategy.py`. -/
inductive PosSide
  | NONE
  | LONG
  | SHORT
deriving DecidableEq

/-- `core/strategy.py` dataclass `Position`. -/
structure Position where
  side : PosSide
  open_lots : ℤ
  avg_price : Option ℚ
deriving DecidableEq

/-- `core/strategy.py` dataclass `OrderIntent`; `typ` is one of `"TP"`,
`"AVG"`, `"SEED"`, `side` one of `"buy"`, `"sell"`. -/
structure OrderIntent where
  side : String
  qty_lots : ℤ
  price : ℚ
  typ : String
deriving DecidableEq

/-- `core/strategy.py` dataclass `Config`. -/
structure Config where
  seed_offset_usd : ℚ
  tp_step_usd : ℚ
  avg_step_usd : ℚ
  avg_multiplier : ℤ
  max_total_lots : ℤ
deriving DecidableEq

/-- `core/strategy.py` `compute_next_orders`.  Note `avg` is
`position.avg_price or mark_price`: a `None` or zero entry price falls back
to the mark price. -/
def compute_next_orders (position : Position) (mark_price : ℚ)
    (cfg : Config) : List OrderIntent :=
  if position.side = PosSide.NONE then
    [{ side := "buy", qty_lots := 1,
       price := mark_price - cfg.seed_offset_usd, typ := "SEED" }]
  else
    let is_long := position.side = PosSide.LONG
    let avg := pyOrOpt position.avg_price mark_price
    let tp_side := if is_long then "sell" else "buy"
    let tp_price := if is_long then avg + cfg.tp_step_usd
                    else avg - cfg.tp_step_usd
    let tp_qty := position.open_lots + 1
    let avg_side := if is_long then "buy" else "sell"
    let avg_price := if is_long then avg - cfg.avg_step_usd
                     else avg + cfg.avg_step_usd
    let avg_qty := position.open_lots * cfg.avg_multiplier
    (if position.open_lots + avg_qty ≤ cfg.max_total_lots then
       [{ side := avg_side, qty_lots := avg_qty, price := avg_price,
          typ := "AVG" }]
     else []) ++
      [{ side := tp_side, qty_lots := tp_qty, price := tp_price, typ := "TP" }]

/-! ## Reconciliation engine (`sync_intents` in `haider_bot/main.py`) -/

/-- A live open order as fetched from the exchange; `main.py` reads
`client_order_id` (nullable), `side`, `limit_price` and `price` from each
item of the listing. -/
structure LiveOrder where
  client_order_id : Option String
  side : String
  limit_price : Option ℚ
  price : Option ℚ
deriving DecidableEq

/-- `float(od.get("limit_price") or od.get("price") or 0)` in `main.py`. -/
def odPrice (od : LiveOrder) : ℚ := pyOrOpt od.limit_price (pyOrOpt od.price 0)

/-- `str(od.get("client_order_id") or "")` in the cancellation pass. -/
def odCoid (od : LiveOrder) : String := od.client_order_id.getD ""

/-- `main.py` `_shade_price`: move the price `shade_ticks` ticks in the
maker-safe direction, then quantize. -/
def shade_price (base_px : ℚ) (side : String) (tick : ℚ)
    (shade_ticks : ℤ) : ℚ :=
  if shade_ticks ≤ 0 then round_price base_px tick
  else
    let adj := tick * (shade_ticks : ℚ)
    let px := if side = "buy" then base_px - adj else base_px + adj
    round_price px tick

/-- `abs((a - b) / tick) if tick > 0 else abs(a - b)`, the tick-distance
used by the proximity check and the cancellation pass. -/
def tickDiff (a b tick : ℚ) : ℚ :=
  if 0 < tick then |(a - b) / tick| else |a - b|

/-- Key of the in-memory `_last_target` guard: `(product_id, side, typ)`. -/
abbrev TargetKey := ℤ × String × String

/-- Outcome of one `adapter.place_limit_order` call: success, the benign
"duplicate client_order_id" error, or any other failure. -/
inductive PlaceOutcome
  | ok
  | dupCoid
  | err
deriving DecidableEq

/-- One placement request issued to the adapter: the arguments of the
`place_limit_order` call. -/
structure Placement where
  side : String
  size : ℤ
  limit_price : ℚ
  post_only : Bool
  client_order_id : String
deriving DecidableEq

/-- The non-adapter scalar inputs of a `sync_intents` call (`lot_size_btc`
only affects the text of the confirmation prompt and is omitted; `now`
stands for `time.time()` during the call). -/
structure SyncEnv where
  env : String
  product_id : ℤ
  tick : ℚ
  use_post_only : Bool
  shade_ticks : ℤ
  follow_threshold_ticks : ℤ
  require_confirmation : Bool
  now : ℚ

/-- State threaded through the placement loop of `sync_intents`: the
accumulating `target_sigs` and `target_coids` lists, the mutable
`_last_target` map, and the placement requests issued so far. -/
structure PlaceState where
  target_sigs : List (String × ℚ × String)
  target_coids : List String
  lastTarget : TargetKey → Option (ℚ × ℚ)
  placements : List Placement

/-- Point update of the `_last_target` map. -/
def updateLast (f : TargetKey → Option (ℚ × ℚ)) (k : TargetKey)
    (v : ℚ × ℚ) : TargetKey → Option (ℚ × ℚ) :=
  fun k' => if k' = k then some v else f k'

/-- `existing_coids` of `sync_intents`: the key set of the dict indexing
fetched orders whose `client_order_id` carries the `HAIDER-` namespace. -/
def existingCoids (open_items : List LiveOrder) : List String :=
  open_items.filterMap fun od =>
    match od.client_order_id with
    | some s => if pyStartswith s "HAIDER-" then some s else none
    | none => none

/-- `existing_by_sig` of `sync_intents`: the `(side, rounded price)`
signatures of the `HAIDER-` orders (the dict's key set). -/
def existingSigs (open_items : List LiveOrder) (tick : ℚ) :
    List (String × ℚ) :=
  open_items.filterMap fun od =>
    match od.client_order_id with
    | some s =>
        if pyStartswith s "HAIDER-" then
          some (pyLower od.side, round_price (odPrice od) tick)
        else none
    | none => none

/-- One iteration of the placement loop of `sync_intents` for the `idx`-th
intent.  The four skip conditions (exact COID match, proximity to an
existing bot order, the 30-second in-memory guard, a declined confirmation
prompt) mirror the source; `confirm idx` is the final yes/no of the prompt
and `outcome idx` the adapter's response to the placement call. -/
def placeStep (e : SyncEnv) (ecoids : List String)
    (esigs : List (String × ℚ)) (confirm : ℕ → Bool)
    (outcome : ℕ → PlaceOutcome) (st : PlaceState) (idx : ℕ)
    (it : OrderIntent) : PlaceState :=
  let px := shade_price it.price it.side e.tick e.shade_ticks
  let coid := gen_target_coid e.env it.typ it.side e.product_id px e.tick
  let thr : ℚ := ((max 0 e.follow_threshold_ticks : ℤ) : ℚ)
  let key : TargetKey := (e.product_id, it.side, it.typ)
  let st' : PlaceState :=
    { st with target_sigs := st.target_sigs ++ [(it.side, px, it.typ)],
              target_coids := st.target_coids ++ [coid] }
  if coid ∈ ecoids then st'
  else if esigs.any (fun p => p.1 == it.side &&
      decide (tickDiff px p.2 e.tick ≤ thr)) then st'
  else if (match st.lastTarget key with
           | some (last_px, last_ts) =>
               decide (tickDiff px last_px e.tick ≤ thr) &&
               decide (e.now - last_ts ≤ 30)
           | none => false) then st'
  else if e.require_confirmation && !(confirm idx) then st'
  else
    let pl : Placement :=
      { side := it.side, size := it.qty_lots, limit_price := px,
        post_only := e.use_post_only, client_order_id := coid }
    let st'' : PlaceState := { st' with placements := st'.placements ++ [pl] }
    match outcome idx with
    | PlaceOutcome.ok =>
        { st'' with lastTarget := updateLast st''.lastTarget key (px, e.now) }
    | PlaceOutcome.dupCoid =>
        { st'' with lastTarget := updateLast st''.lastTarget key (px, e.now) }
    | PlaceOutcome.err => st''

/-- The cancellation pass at the end of `sync_intents`: the
client_order_ids for which `adapter.cancel_order` is called, in listing
order. -/
def cancelPass (e : SyncEnv) (open_items : List LiveOrder)
    (target_coids : List String)
    (target_sigs : List (String × ℚ × String)) : List String :=
  open_items.filterMap fun od =>
    let coid := odCoid od
    if !(pyStartswith coid "HAIDER-") then none
    else if coid ∈ target_coids then none
    else
      let price := round_price (odPrice od) e.tick
      if target_sigs.any (fun s => s.1 == pyLower od.side &&
          decide (tickDiff s.2.1 price e.tick ≤
            ((max 0 e.follow_threshold_ticks : ℤ) : ℚ))) then none
      else some coid

/-- What one `sync_intents` call did: the placement requests issued, the
client_order_ids cancelled, and the `_last_target` map at exit. -/
structure SyncResult where
  placements : List Placement
  cancels : List String
  lastTarget : TargetKey → Option (ℚ × ℚ)

/-- `main.py` `sync_intents`.  `fetch` is the result of
`adapter.get_open_orders` — `none` when the call raises, in which case the
source proceeds with `open_items = []`; `last0` is the module-level
`_last_target` map at entry. -/
def sync_intents (e : SyncEnv) (fetch : Option (List LiveOrder))
    (intents : List OrderIntent) (last0 : TargetKey → Option (ℚ × ℚ))
    (confirm : ℕ → Bool) (outcome : ℕ → PlaceOutcome) : SyncResult :=
  let open_items := fetch.getD []
  let ecoids := existingCoids open_items
  let esigs := existingSigs open_items e.tick
  let st := intents.enum.foldl
    (fun st p => placeStep e ecoids esigs confirm outcome st p.1 p.2)
    { target_sigs := [], target_coids := [], lastTarget := last0,
      placements := [] }
  { placements := st.placements,
    cancels := cancelPass e open_items st.target_coids st.target_sigs,
    lastTarget := st.lastTarget }

/-! ## Helper lemmas about the rounding primitives -/

/-- `round` of an integer is that integer. -/
theorem rhe_intCast (n : ℤ) : rhe (n : ℚ) = n := by
  have hf : ⌊(n : ℚ)⌋ = n := Int.floor_intCast n
  simp [rhe, hf]

/-- `round` never moves a number by more than 1/2. -/
theorem rhe_sub_abs_le (q : ℚ) : |(rhe q : ℚ) - q| ≤ 1/2 := by
  have h0 : (⌊q⌋ : ℚ) ≤ q := Int.floor_le q
  have h1 : q < ⌊q⌋ + 1 := Int.lt_floor_add_one q
  unfold rhe
  by_cases hlt : q - ⌊q⌋ < 1/2
  · rw [if_pos hlt, abs_sub_comm, abs_of_nonneg (by linarith)]
    linarith
  · rw [if_neg hlt]
    by_cases hgt : 1/2 < q - ⌊q⌋
    · rw [if_pos hgt]
      push_cast
      rw [abs_of_nonneg (by linarith)]
      linarith
    · rw [if_neg hgt]
      have heq : q - ⌊q⌋ = 1/2 := le_antisymm (not_lt.mp hgt) (not_lt.mp hlt)
      by_cases he : ⌊q⌋ % 2 = 0
      · rw [if_pos he, abs_sub_comm, abs_of_nonneg (by linarith)]
        linarith
      · rw [if_neg he]
        push_cast
        rw [abs_of_nonneg (by linarith)]
        linarith

/-- A number strictly within 1/2 of the integer `n` rounds to `n`. -/
theorem rhe_eq_of_abs_lt (q : ℚ) (n : ℤ) (h : |q - (n : ℚ)| < 1/2) :
    rhe q = n := by
  rw [abs_lt] at h
  obtain ⟨h1, h2⟩ := h
  by_cases hq : (n : ℚ) ≤ q
  · have hfl : ⌊q⌋ = n := by
      rw [Int.floor_eq_iff]
      exact ⟨hq, by linarith⟩
    unfold rhe
    rw [hfl, if_pos (by linarith)]
  · push_neg at hq
    have hfl : ⌊q⌋ = n - 1 := by
      rw [Int.floor_eq_iff]
      constructor
      · push_cast; linarith
      · push_cast; linarith
    unfold rhe
    rw [hfl, if_neg (by push_cast; linarith), if_pos (by push_cast; linarith)]
    omega

/-- No-op of the 10-decimal re-formatting on a value that is an exact
multiple of `10^-10`. -/
theorem fmt10_int_mul (x : ℚ) (m : ℤ) (hm : x * 10^10 = (m : ℚ)) :
    fmt10 x = x := by
  unfold fmt10
  rw [hm, rhe_intCast, ← hm]
  field_simp

/-! ## Theorems -/

/-- C1: the client-order-id generator is deterministic and collapses prices
by tick index: on identical arguments it returns identical strings, and for
`tick_size > 0`, two prices with the same rounded tick index
`int(round(price / tick_size))` yield identical client_order_ids. -/
theorem gen_target_coid_deterministic_collapse (env typ side : String)
    (product_id : ℤ) (tick_size p1 p2 : ℚ) (ht : 0 < tick_size)
    (hq : rhe (p1 / tick_size) = rhe (p2 / tick_size)) :
    gen_target_coid env typ side product_id p1 tick_size =
      gen_target_coid env typ side product_id p1 tick_size ∧
    gen_target_coid env typ side product_id p1 tick_size =
      gen_target_coid env typ side product_id p2 tick_size := by
  refine ⟨rfl, ?_⟩
  simp only [gen_target_coid, if_pos ht, hq]

/-- Witness for C1 at env "live", kind "TP", side "buy", product 27,
tick 0.1, prices 100.04 and 100.01 (both quantize to tick 1000). -/
theorem gen_target_coid_deterministic_collapse_witness :
    (0 : ℚ) < 1/10 ∧
    rhe ((10004/100 : ℚ) / (1/10)) = rhe ((10001/100 : ℚ) / (1/10)) ∧
    (gen_target_coid "live" "TP" "buy" 27 (10004/100) (1/10) =
       gen_target_coid "live" "TP" "buy" 27 (10004/100) (1/10) ∧
     gen_target_coid "live" "TP" "buy" 27 (10004/100) (1/10) =
       gen_target_coid "live" "TP" "buy" 27 (10001/100) (1/10)) :=
  have h1 : (0 : ℚ) < 1/10 := by norm_num
  have h2 : rhe ((10004/100 : ℚ) / (1/10)) = rhe ((10001/100 : ℚ) / (1/10)) := by
    norm_num [rhe]
  ⟨h1, h2,
    gen_target_coid_deterministic_collapse "live" "TP" "buy" 27 (1/10)
      (10004/100) (10001/100) h1 h2⟩

/-- C9 counterexample: at `tick_size = 0` nothing signals an error — the
quantizer returns the price unchanged (`round_price 100.5 0 = 100.5`) and
the generator silently falls back to the tick index `round(price)` computed
without the tick size (`...-T100`). -/
theorem tick_nonpos_no_error_counterexample :
    round_price (201/2) 0 = 201/2 ∧
    gen_target_coid "live" "TP" "buy" 7 (201/2) 0 =
      "HAIDER-LIVE-TP-BUY-P7-T100" := by
  constructor
  · simp [round_price]
  · have h : rhe (201/2 : ℚ) = 100 := by norm_num [rhe]
    simp only [gen_target_coid, lt_irrefl, if_false, h]
    decide

/-- C9 amended: a non-positive `tick_size` is NOT treated as a failure —
`round_price` silently passes the price through unchanged, and
`gen_target_coid` silently falls back to the tick index computed from the
price alone (the same index it would compute with tick size 1). -/
theorem tick_nonpos_silent_fallback (env typ side : String)
    (product_id : ℤ) (price tick_size : ℚ) (ht : tick_size ≤ 0) :
    round_price price tick_size = price ∧
    gen_target_coid env typ side product_id price tick_size =
      gen_target_coid env typ side product_id ((rhe price : ℤ) : ℚ) 1 := by
  constructor
  · simp [round_price, ht]
  · have h0 : ¬ (0 : ℚ) < tick_size := not_lt.mpr ht
    have h1 : rhe (((rhe price : ℤ) : ℚ) / 1) = rhe price := by
      rw [div_one, rhe_intCast]
    simp only [gen_target_coid, if_neg h0, if_pos one_pos, h1]

/-- Witness for C9's amended statement at tick_size 0, price 100.5. -/
theorem tick_nonpos_silent_fallback_witness :
    (0 : ℚ) ≤ 0 ∧
    (round_price (201/2) 0 = 201/2 ∧
     gen_target_coid "live" "TP" "buy" 7 (201/2) 0 =
       gen_target_coid "live" "TP" "buy" 7 ((rhe (201/2 : ℚ) : ℤ) : ℚ) 1) :=
  ⟨le_refl 0, tick_nonpos_silent_fallback "live" "TP" "buy" 7 (201/2) 0 (le_refl 0)⟩

/-- C4 counterexample: with an open LONG position of 1 lot whose
`avg_price` is present but equal to 0, mark price 100 and
`tp_step_usd = 20`, the emitted TAKE_PROFIT price is 120 (computed from the
mark price), not `avg_price + tp_step = 20`: `avg_price` being present is
not enough, because Python's `or` also discards a zero entry price. -/
theorem compute_next_orders_tp_zero_avg_counterexample :
    (compute_next_orders ⟨PosSide.LONG, 1, some 0⟩ 100 ⟨5, 20, 20, 1, 10⟩).filter
        (fun it => it.typ == "TP") =
      [{ side := "sell", qty_lots := 2, price := 120, typ := "TP" }] ∧
    (120 : ℚ) ≠ 0 + 20 := by
  constructor
  · norm_num [compute_next_orders, pyOrOpt, List.filter,
      (by decide : ("AVG" == "TP") = false),
      (by decide : ("TP" == "TP") = true)]
  · norm_num

/-- C4 amended: for every open position (LONG or SHORT, `open_lots ≥ 1`)
whose `avg_price` is present *and nonzero*, `compute_next_orders` emits
exactly one TAKE_PROFIT intent, on the side opposite the position, with
`qty_lots = open_lots + 1` and price `avg_price ± tp_step`; it is emitted
unconditionally. -/
theorem compute_next_orders_tp (position : Position) (mark_price : ℚ)
    (cfg : Config) (a : ℚ) (hside : position.side ≠ PosSide.NONE)
    (hl : 1 ≤ position.open_lots) (ha : position.avg_price = some a)
    (ha0 : a ≠ 0) :
    (compute_next_orders position mark_price cfg).filter
        (fun it => it.typ == "TP") =
      [{ side := if position.side = PosSide.LONG then "sell" else "buy",
         qty_lots := position.open_lots + 1,
         price := if position.side = PosSide.LONG then a + cfg.tp_step_usd
                  else a - cfg.tp_step_usd,
         typ := "TP" }] := by
  have havg : pyOrOpt position.avg_price mark_price = a := by
    simp [pyOrOpt, ha, ha0]
  cases hs : position.side with
  | NONE => exact absurd hs hside
  | LONG => simp [compute_next_orders, hs, havg]
  | SHORT => simp [compute_next_orders, hs, havg]

/-- Witness for C4's amended statement: LONG 2 lots at entry 50, tp step
20 → exactly one TP intent, sell, 3 lots, at 70. -/
theorem compute_next_orders_tp_witness :
    (50 : ℚ) ≠ 0 ∧
    (compute_next_orders ⟨PosSide.LONG, 2, some 50⟩ 100 ⟨5, 20, 20, 1, 10⟩).filter
        (fun it => it.typ == "TP") =
      [{ side := "sell", qty_lots := 3, price := 70, typ := "TP" }] := by
  have h := compute_next_orders_tp ⟨PosSide.LONG, 2, some 50⟩ 100
    ⟨5, 20, 20, 1, 10⟩ 50 (by decide) (by decide) rfl (by norm_num)
  norm_num at h
  exact ⟨by norm_num, h⟩

/-- C5: the risk cap silently suppresses averaging.  For every open
position, if `L + L*m` exceeds `max_total_lots` the output contains no
AVERAGE_DOWN intent; otherwise it contains exactly one, on the position's
own side, with quantity `L*m`. -/
theorem compute_next_orders_avg_cap (position : Position) (mark_price : ℚ)
    (cfg : Config) (hside : position.side ≠ PosSide.NONE)
    (hl : 1 ≤ position.open_lots) :
    (cfg.max_total_lots <
        position.open_lots + position.open_lots * cfg.avg_multiplier →
      (compute_next_orders position mark_price cfg).filter
        (fun it => it.typ == "AVG") = []) ∧
    (position.open_lots + position.open_lots * cfg.avg_multiplier ≤
        cfg.max_total_lots →
      (compute_next_orders position mark_price cfg).filter
        (fun it => it.typ == "AVG") =
        [{ side := if position.side = PosSide.LONG then "buy" else "sell",
           qty_lots := position.open_lots * cfg.avg_multiplier,
           price := if position.side = PosSide.LONG then
                      pyOrOpt position.avg_price mark_price - cfg.avg_step_usd
                    else
                      pyOrOpt position.avg_price mark_price + cfg.avg_step_usd,
           typ := "AVG" }]) := by
  constructor
  · intro h
    have h' : ¬ (position.open_lots + position.open_lots * cfg.avg_multiplier
        ≤ cfg.max_total_lots) := not_le.mpr h
    cases hs : position.side with
    | NONE => exact absurd hs hside
    | LONG => simp [compute_next_orders, hs, h']
    | SHORT => simp [compute_next_orders, hs, h']
  · intro h
    cases hs : position.side with
    | NONE => exact absurd hs hside
    | LONG => simp [compute_next_orders, hs, h]
    | SHORT => simp [compute_next_orders, hs, h]

/-- Witness for C5, the spec's own averaging-cap scenario: LONG 8 lots at
60000, multiplier 2, cap 10 → 8 + 16 > 10, so no AVERAGE_DOWN; and LONG
2 lots under the same config → exactly one AVERAGE_DOWN, buy 4 lots. -/
theorem compute_next_orders_avg_cap_witness :
    (compute_next_orders ⟨PosSide.LONG, 8, some 60000⟩ 60100
        ⟨5, 20, 20, 2, 10⟩).filter (fun it => it.typ == "AVG") = [] ∧
    (compute_next_orders ⟨PosSide.LONG, 2, some 60000⟩ 60100
        ⟨5, 20, 20, 2, 10⟩).filter (fun it => it.typ == "AVG") =
      [{ side := "buy", qty_lots := 4, price := 59980, typ := "AVG" }] := by
  constructor
  · exact (compute_next_orders_avg_cap ⟨PosSide.LONG, 8, some 60000⟩ 60100
      ⟨5, 20, 20, 2, 10⟩ (by decide) (by decide)).1 (by decide)
  · have h := (compute_next_orders_avg_cap ⟨PosSide.LONG, 2, some 60000⟩ 60100
      ⟨5, 20, 20, 2, 10⟩ (by decide) (by decide)).2 (by decide)
    norm_num [pyOrOpt] at h
    exact h

/-- C10: when the position is open but `avg_price` is `None` or zero,
`compute_next_orders` substitutes the mark price for the entry price: the
TP intent is emitted at `mark ± tp_step` and any AVERAGE_DOWN intent at
`mark ∓ avg_step`; the cycle is not skipped and no error is raised. -/
theorem compute_next_orders_mark_substitution (position : Position)
    (mark_price : ℚ) (cfg : Config) (hside : position.side ≠ PosSide.NONE)
    (ha : position.avg_price = none ∨ position.avg_price = some 0) :
    (compute_next_orders position mark_price cfg).filter
        (fun it => it.typ == "TP") =
      [{ side := if position.side = PosSide.LONG then "sell" else "buy",
         qty_lots := position.open_lots + 1,
         price := if position.side = PosSide.LONG then
                    mark_price + cfg.tp_step_usd
                  else mark_price - cfg.tp_step_usd,
         typ := "TP" }] ∧
    ∀ it ∈ (compute_next_orders position mark_price cfg).filter
        (fun it => it.typ == "AVG"),
      it.price = if position.side = PosSide.LONG then
                   mark_price - cfg.avg_step_usd
                 else mark_price + cfg.avg_step_usd := by
  have havg : pyOrOpt position.avg_price mark_price = mark_price := by
    rcases ha with h | h <;> simp [pyOrOpt, h]
  constructor
  · cases hs : position.side with
    | NONE => exact absurd hs hside
    | LONG => simp [compute_next_orders, hs, havg]
    | SHORT => simp [compute_next_orders, hs, havg]
  · intro it hit
    cases hs : position.side with
    | NONE => exact absurd hs hside
    | LONG =>
        simp [compute_next_orders, hs, havg] at hit
        obtain ⟨⟨hcap, rfl⟩, -⟩ := hit
        simp
    | SHORT =>
        simp [compute_next_orders, hs, havg] at hit
        obtain ⟨⟨hcap, rfl⟩, -⟩ := hit
        simp

/-- Witness for C10: SHORT 3 lots with a `None` entry price, mark 200 →
TP is buy 4 lots at `200 - 20 = 180`, and the AVERAGE_DOWN intent (present,
3 + 3 ≤ 10) prices at `200 + 20 = 220`. -/
theorem compute_next_orders_mark_substitution_witness :
    (compute_next_orders ⟨PosSide.SHORT, 3, none⟩ 200 ⟨5, 20, 20, 1, 10⟩).filter
        (fun it => it.typ == "TP") =
      [{ side := "buy", qty_lots := 4, price := 180, typ := "TP" }] ∧
    ∀ it ∈ (compute_next_orders ⟨PosSide.SHORT, 3, none⟩ 200
        ⟨5, 20, 20, 1, 10⟩).filter (fun it => it.typ == "AVG"),
      it.price = 220 := by
  have h := compute_next_orders_mark_substitution ⟨PosSide.SHORT, 3, none⟩ 200
    ⟨5, 20, 20, 1, 10⟩ (by decide) (Or.inl rfl)
  constructor
  · have h1 := h.1
    norm_num at h1
    exact h1
  · intro it hit
    have h2 := h.2 it hit
    norm_num at h2
    exact h2

/-- C7: price quantization is idempotent: for every price and every
positive tick size, re-quantizing a quantized price returns it unchanged —
including the 10-decimal re-formatting step. -/
theorem round_price_idempotent (p t : ℚ) (ht : 0 < t) :
    round_price (round_price p t) t = round_price p t := by
  have htne : ¬ t ≤ 0 := not_le.mpr ht
  have hE : (0:ℚ) < 10^10 := by norm_num
  unfold round_price
  rw [if_neg htne, if_neg htne]
  set n : ℤ := rhe (p / t) with hn
  set x : ℚ := (n : ℚ) * t with hx
  set k : ℤ := rhe (x * 10^10) with hk
  have hp' : fmt10 x = (k : ℚ) / 10^10 := by
    rw [fmt10, ← hk]
  rw [hp']
  set p' : ℚ := (k : ℚ) / 10^10 with hpdef
  set j : ℤ := rhe (p' / t) with hj
  have key : rhe ((j : ℚ) * t * 10^10) = k := by
    rcases lt_trichotomy (t * 10^10) 1 with hlt | heq | hgt
    · -- tiny tick: the second rounding moves by at most t/2 < 1/(2·10^10)
      have hjs : |(j : ℚ) - p' / t| ≤ 1/2 := by
        rw [hj]; exact rhe_sub_abs_le (p' / t)
      have h1 : |(j : ℚ) * t - p'| ≤ t / 2 := by
        have hrw : (j : ℚ) * t - p' = ((j : ℚ) - p' / t) * t := by
          field_simp
        rw [hrw, abs_mul, abs_of_pos ht]
        calc |(j : ℚ) - p' / t| * t ≤ (1/2) * t :=
              mul_le_mul_of_nonneg_right hjs (le_of_lt ht)
          _ = t / 2 := by ring
      have hk' : (k : ℚ) = p' * 10^10 := by
        rw [hpdef]; field_simp
      have h2 : |(j : ℚ) * t * 10^10 - (k : ℚ)| < 1/2 := by
        rw [hk']
        have hrw : (j : ℚ) * t * 10^10 - p' * 10^10 =
            ((j : ℚ) * t - p') * 10^10 := by ring
        rw [hrw, abs_mul, abs_of_pos hE]
        calc |(j : ℚ) * t - p'| * 10^10 ≤ (t/2) * 10^10 :=
              mul_le_mul_of_nonneg_right h1 (le_of_lt hE)
          _ = (t * 10^10) / 2 := by ring
          _ < 1/2 := by linarith
      exact rhe_eq_of_abs_lt _ k h2
    · -- tick exactly 10^-10: everything is already integral
      have hx' : x * 10^10 = (n : ℚ) := by
        rw [hx]
        calc (n : ℚ) * t * 10^10 = (n : ℚ) * (t * 10^10) := by ring
          _ = (n : ℚ) := by rw [heq, mul_one]
      have hkn : k = n := by rw [hk, hx', rhe_intCast]
      have hpt : p' / t = (n : ℚ) := by
        rw [hpdef, hkn, div_div]
        rw [show (10:ℚ)^10 * t = 1 by rw [mul_comm]; exact heq, div_one]
      have hjn : j = n := by rw [hj, hpt, rhe_intCast]
      rw [hjn, hkn]
      have : (n : ℚ) * t * 10^10 = (n : ℚ) := by
        calc (n : ℚ) * t * 10^10 = (n : ℚ) * (t * 10^10) := by ring
          _ = (n : ℚ) := by rw [heq, mul_one]
      rw [this, rhe_intCast]
    · -- ordinary tick: the formatted price stays within half a tick of n·t
      have hks : |(k : ℚ) - x * 10^10| ≤ 1/2 := by
        rw [hk]; exact rhe_sub_abs_le (x * 10^10)
      have hEt : (0:ℚ) < 10^10 * t := by positivity
      have key1 : |p' / t - (n : ℚ)| < 1/2 := by
        have heq1 : p' / t - (n : ℚ) = ((k : ℚ) - x * 10^10) / (10^10 * t) := by
          rw [hpdef, hx]
          field_simp
          ring
        rw [heq1, abs_div, abs_of_pos hEt]
        have hlt1 : 1 < 10^10 * t := by rw [mul_comm]; exact hgt
        calc |(k : ℚ) - x * 10^10| / (10^10 * t) ≤ (1/2) / (10^10 * t) := by
              gcongr
          _ < 1/2 := by
              rw [div_lt_iff₀ hEt]
              nlinarith
      have hjn : j = n := by
        rw [hj]; exact rhe_eq_of_abs_lt _ n key1
      rw [hjn]
  rw [fmt10, key]

/-- Witness for C7 at price 100.04, tick 0.1. -/
theorem round_price_idempotent_witness :
    (0:ℚ) < 1/10 ∧
    round_price (round_price (10004/100) (1/10)) (1/10) =
      round_price (10004/100) (1/10) :=
  ⟨by norm_num, round_price_idempotent (10004/100) (1/10) (by norm_num)⟩

/-- C8 counterexample: `round_qty` CAN round up.  With
`qty = step = 6·10^-11`, the floored multiple is `1 × step = 6·10^-11`,
but the final `float(f"{...:.10f}")` re-formatting rounds it up to
`10^-10 > qty`. -/
theorem round_qty_rounds_up_counterexample :
    round_qty (6/10^11) (6/10^11) = 1/10^10 ∧
    ¬ round_qty (6/10^11) (6/10^11) ≤ 6/10^11 := by
  have h : round_qty (6/10^11 : ℚ) (6/10^11) = 1/10^10 := by
    norm_num [round_qty, pyInt, fmt10, rhe]
  exact ⟨h, by rw [h]; norm_num⟩

/-- C8 amended: for quantity steps that are exact multiples of `10^-10`
(every realistic lot step), `round_qty` floors: the result is an integer
multiple of `step` and never exceeds `qty`. -/
theorem round_qty_floor (qty step : ℚ) (k : ℤ) (hq : 0 ≤ qty)
    (hs : 0 < step) (hk : step * 10^10 = (k : ℚ)) :
    (∃ m : ℤ, round_qty qty step = (m : ℚ) * step) ∧
    round_qty qty step ≤ qty := by
  have hsne : ¬ step ≤ 0 := not_le.mpr hs
  unfold round_qty
  rw [if_neg hsne]
  have hn : pyInt (qty / step) = ⌊qty / step⌋ := by
    unfold pyInt
    rw [if_pos (by positivity)]
  rw [hn]
  have hfmt : fmt10 ((⌊qty/step⌋ : ℚ) * step) = (⌊qty/step⌋ : ℚ) * step := by
    apply fmt10_int_mul _ (⌊qty/step⌋ * k)
    push_cast
    calc (⌊qty/step⌋ : ℚ) * step * 10^10
        = (⌊qty/step⌋ : ℚ) * (step * 10^10) := by ring
      _ = (⌊qty/step⌋ : ℚ) * (k : ℚ) := by rw [hk]
  rw [hfmt]
  refine ⟨⟨⌊qty/step⌋, rfl⟩, ?_⟩
  have h1 : (⌊qty/step⌋ : ℚ) ≤ qty / step := Int.floor_le _
  calc (⌊qty/step⌋ : ℚ) * step ≤ (qty / step) * step :=
        mul_le_mul_of_nonneg_right h1 (le_of_lt hs)
    _ = qty := by field_simp

/-- Witness for C8's amended statement: qty 0.7, step 0.3
(`0.3 · 10^10 = 3·10^9`) → floor to 0.6 ≤ 0.7, a multiple of 0.3. -/
theorem round_qty_floor_witness :
    (0:ℚ) ≤ 7/10 ∧ (0:ℚ) < 3/10 ∧
    ((∃ m : ℤ, round_qty (7/10) (3/10) = (m : ℚ) * (3/10)) ∧
      round_qty (7/10) (3/10) ≤ 7/10) :=
  ⟨by norm_num, by norm_num,
    round_qty_floor (7/10) (3/10) (3*10^9) (by norm_num) (by norm_num)
      (by push_cast; norm_num)⟩

/-! ## Helper lemmas about the reconciliation engine -/

/-- Every generated client_order_id carries the `HAIDER-` namespace. -/
theorem gen_target_coid_startswith (env typ side : String) (product_id : ℤ)
    (price tick_size : ℚ) :
    pyStartswith (gen_target_coid env typ side product_id price tick_size)
      "HAIDER-" = true := by
  simp only [gen_target_coid, pyStartswith]
  simp [String.data_append, List.isPrefixOf_iff_prefix]

/-- Every client_order_id the cancellation pass cancels carries the
`HAIDER-` namespace. -/
theorem cancelPass_startswith (e : SyncEnv) (open_items : List LiveOrder)
    (tcoids : List String) (tsigs : List (String × ℚ × String)) :
    ∀ c ∈ cancelPass e open_items tcoids tsigs,
      pyStartswith c "HAIDER-" = true := by
  intro c hc
  simp only [cancelPass, List.mem_filterMap] at hc
  obtain ⟨od, -, h⟩ := hc
  by_cases h1 : pyStartswith (odCoid od) "HAIDER-" = true
  · simp only [h1, Bool.not_true, Bool.false_eq_true, if_false] at h
    split at h
    · exact absurd h (by simp)
    · split at h
      · exact absurd h (by simp)
      · obtain rfl : odCoid od = c := Option.some.inj h
        exact h1
  · have h1' : (!pyStartswith (odCoid od) "HAIDER-") = true := by
      simp [h1]
    rw [if_pos h1'] at h
    exact absurd h (by simp)

/-- Either an iteration of the placement loop issues nothing, or it issues
exactly one placement, whose client_order_id was not among the fetched bot
orders' COIDs (the `coid in existing_coids` skip). -/
theorem placeStep_placements (e : SyncEnv) (ecoids : List String)
    (esigs : List (String × ℚ)) (confirm : ℕ → Bool)
    (outcome : ℕ → PlaceOutcome) (st : PlaceState) (idx : ℕ)
    (it : OrderIntent) :
    (placeStep e ecoids esigs confirm outcome st idx it).placements =
        st.placements ∨
    ∃ pl : Placement,
      (placeStep e ecoids esigs confirm outcome st idx it).placements =
          st.placements ++ [pl] ∧
      pl.client_order_id ∉ ecoids := by
  simp only [placeStep]
  split
  · left; rfl
  · rename_i hmem
    split
    · left; rfl
    · split
      · left; rfl
      · split
        · left; rfl
        · right
          refine ⟨Placement.mk it.side it.qty_lots
              (shade_price it.price it.side e.tick e.shade_ticks)
              e.use_post_only
              (gen_target_coid e.env it.typ it.side e.product_id
                (shade_price it.price it.side e.tick e.shade_ticks) e.tick),
            ?_, hmem⟩
          cases houtcome : outcome idx <;> simp [houtcome]

/-- The placement loop never issues a placement whose client_order_id is
already among the fetched bot orders' COIDs. -/
theorem placeLoop_not_existing (e : SyncEnv) (ecoids : List String)
    (esigs : List (String × ℚ)) (confirm : ℕ → Bool)
    (outcome : ℕ → PlaceOutcome) :
    ∀ (l : List (ℕ × OrderIntent)) (st : PlaceState),
      (∀ pl ∈ st.placements, pl.client_order_id ∉ ecoids) →
      ∀ pl ∈ (l.foldl (fun s p =>
          placeStep e ecoids esigs confirm outcome s p.1 p.2) st).placements,
        pl.client_order_id ∉ ecoids
  | [], st, hst => by simpa using hst
  | (p :: l), st, hst => by
      rw [List.foldl_cons]
      apply placeLoop_not_existing e ecoids esigs confirm outcome l
      intro pl hpl
      rcases placeStep_placements e ecoids esigs confirm outcome st p.1 p.2
        with h | ⟨pl0, h, h0⟩
      · rw [h] at hpl
        exact hst pl hpl
      · rw [h, List.mem_append] at hpl
        rcases hpl with h1 | h1
        · exact hst pl h1
        · rw [List.mem_singleton] at h1
          subst h1
          exact h0

/-- A fetched order whose client_order_id carries the namespace contributes
its COID to `existing_coids`. -/
theorem mem_existingCoids (open_items : List LiveOrder) (od : LiveOrder)
    (s : String) (hod : od ∈ open_items)
    (hcoid : od.client_order_id = some s)
    (hpre : pyStartswith s "HAIDER-" = true) :
    s ∈ existingCoids open_items := by
  simp only [existingCoids, List.mem_filterMap]
  refine ⟨od, hod, ?_⟩
  rw [hcoid]
  simp [hpre]

/-- C2: if the live-order listing fetch fails, the cancellation pass of
that cycle issues zero cancel requests — the empty live set is never read
as "cancel everything" — while the whole call, placements included,
behaves exactly as with an empty live-order set. -/
theorem sync_intents_fetch_failure (e : SyncEnv) (intents : List OrderIntent)
    (last0 : TargetKey → Option (ℚ × ℚ)) (confirm : ℕ → Bool)
    (outcome : ℕ → PlaceOutcome) :
    (sync_intents e none intents last0 confirm outcome).cancels = [] ∧
    sync_intents e none intents last0 confirm outcome =
      sync_intents e (some []) intents last0 confirm outcome :=
  ⟨rfl, rfl⟩

/-- C3: a live order whose client_order_id does not carry the `HAIDER-`
namespace (a null id is read as the empty string) is never cancelled,
whatever the target set. -/
theorem sync_intents_never_cancels_foreign (e : SyncEnv)
    (fetch : Option (List LiveOrder)) (intents : List OrderIntent)
    (last0 : TargetKey → Option (ℚ × ℚ)) (confirm : ℕ → Bool)
    (outcome : ℕ → PlaceOutcome) (od : LiveOrder)
    (hmem : od ∈ fetch.getD [])
    (hpre : pyStartswith (odCoid od) "HAIDER-" = false) :
    odCoid od ∉ (sync_intents e fetch intents last0 confirm outcome).cancels := by
  intro hin
  simp only [sync_intents] at hin
  have h := cancelPass_startswith _ _ _ _ _ hin
  rw [hpre] at h
  exact Bool.false_ne_true h

/-- Witness for C3: one fetched foreign order (COID `FOREIGN-1`), one TP
target; the foreign order is not cancelled. -/
theorem sync_intents_never_cancels_foreign_witness :
    ((⟨some "FOREIGN-1", "buy", some 100, none⟩ : LiveOrder) ∈
      (some [(⟨some "FOREIGN-1", "buy", some 100, none⟩ : LiveOrder)] :
        Option (List LiveOrder)).getD []) ∧
    pyStartswith (odCoid ⟨some "FOREIGN-1", "buy", some 100, none⟩)
      "HAIDER-" = false ∧
    odCoid ⟨some "FOREIGN-1", "buy", some 100, none⟩ ∉
      (sync_intents ⟨"live", 1, 1, true, 0, 2, false, 0⟩
        (some [⟨some "FOREIGN-1", "buy", some 100, none⟩])
        [⟨"sell", 2, 100, "TP"⟩] (fun _ => none) (fun _ => true)
        (fun _ => PlaceOutcome.ok)).cancels :=
  ⟨List.mem_singleton.mpr rfl, by decide,
    sync_intents_never_cancels_foreign _ _ _ _ _ _ _
      (List.mem_singleton.mpr rfl) (by decide)⟩

/-- If some fetched live order's client_order_id equals a target's
deterministic COID, no placement request carrying that COID is issued. -/
theorem no_placement_of_resting_coid (e : SyncEnv)
    (fetch : Option (List LiveOrder)) (intents : List OrderIntent)
    (last0 : TargetKey → Option (ℚ × ℚ)) (confirm : ℕ → Bool)
    (outcome : ℕ → PlaceOutcome) (it : OrderIntent)
    (hlive : ∃ od ∈ fetch.getD [], od.client_order_id =
        some (gen_target_coid e.env it.typ it.side e.product_id
          (shade_price it.price it.side e.tick e.shade_ticks) e.tick)) :
    ∀ pl ∈ (sync_intents e fetch intents last0 confirm outcome).placements,
      pl.client_order_id ≠ gen_target_coid e.env it.typ it.side e.product_id
        (shade_price it.price it.side e.tick e.shade_ticks) e.tick := by
  intro pl hpl heq
  obtain ⟨od, hod, hcoid⟩ := hlive
  have hex : gen_target_coid e.env it.typ it.side e.product_id
      (shade_price it.price it.side e.tick e.shade_ticks) e.tick ∈
      existingCoids (fetch.getD []) :=
    mem_existingCoids _ od _ hod hcoid (gen_target_coid_startswith _ _ _ _ _ _)
  simp only [sync_intents] at hpl
  have hnot := placeLoop_not_existing e (existingCoids (fetch.getD []))
    (existingSigs (fetch.getD []) e.tick) confirm outcome intents.enum
    { target_sigs := [], target_coids := [], lastTarget := last0,
      placements := [] } (by intro q hq; simp at hq) pl hpl
  rw [heq] at hnot
  exact hnot hex

/-- An iteration whose generated COID already rests among the fetched bot
orders' COIDs leaves the placement list untouched. -/
theorem placeLoop_all_skipped (e : SyncEnv) (ecoids : List String)
    (esigs : List (String × ℚ)) (confirm : ℕ → Bool)
    (outcome : ℕ → PlaceOutcome) :
    ∀ (l : List (ℕ × OrderIntent)) (st : PlaceState),
      (∀ p ∈ l, gen_target_coid e.env p.2.typ p.2.side e.product_id
          (shade_price p.2.price p.2.side e.tick e.shade_ticks) e.tick
          ∈ ecoids) →
      (l.foldl (fun s p =>
          placeStep e ecoids esigs confirm outcome s p.1 p.2) st).placements
        = st.placements
  | [], _, _ => rfl
  | (p :: l), st, h => by
      rw [List.foldl_cons,
        placeLoop_all_skipped e ecoids esigs confirm outcome l _
          (fun q hq => h q (List.mem_cons_of_mem p hq))]
      have hp := h p (List.mem_cons_self p l)
      simp [placeStep, hp]

/-- The second component of a pair listed by `List.enum` is a member of the
underlying list. -/
theorem snd_mem_of_mem_enum {α : Type} {p : ℕ × α} {l : List α}
    (h : p ∈ l.enum) : p.2 ∈ l := by
  rw [List.mem_enum_iff_getElem?] at h
  rw [List.mem_iff_getElem?]
  exact ⟨p.1, h⟩

/-- C6: if some fetched live order's client_order_id equals a target's
deterministic COID, no placement request carrying that COID is issued this
cycle (the exact-match skip); consequently, when every target's COID
already rests among the fetched live orders — as in a second consecutive
cycle with identical mark price and position — zero placement requests are
issued. -/
theorem sync_intents_exact_match_no_placement (e : SyncEnv)
    (fetch : Option (List LiveOrder)) (intents : List OrderIntent)
    (last0 : TargetKey → Option (ℚ × ℚ)) (confirm : ℕ → Bool)
    (outcome : ℕ → PlaceOutcome) :
    (∀ it ∈ intents,
      (∃ od ∈ fetch.getD [], od.client_order_id =
          some (gen_target_coid e.env it.typ it.side e.product_id
            (shade_price it.price it.side e.tick e.shade_ticks) e.tick)) →
      ∀ pl ∈ (sync_intents e fetch intents last0 confirm outcome).placements,
        pl.client_order_id ≠ gen_target_coid e.env it.typ it.side
          e.product_id (shade_price it.price it.side e.tick e.shade_ticks)
          e.tick) ∧
    ((∀ it ∈ intents, ∃ od ∈ fetch.getD [], od.client_order_id =
          some (gen_target_coid e.env it.typ it.side e.product_id
            (shade_price it.price it.side e.tick e.shade_ticks) e.tick)) →
      (sync_intents e fetch intents last0 confirm outcome).placements = []) := by
  constructor
  · intro it _ hlive
    exact no_placement_of_resting_coid e fetch intents last0 confirm outcome
      it hlive
  · intro hall
    simp only [sync_intents]
    apply placeLoop_all_skipped
    intro p hp
    obtain ⟨od, hod, hcoid⟩ := hall p.2 (snd_mem_of_mem_enum hp)
    exact mem_existingCoids _ od _ hod hcoid
      (gen_target_coid_startswith _ _ _ _ _ _)

/-- Witness for C6: the single TP target's COID
(`HAIDER-LIVE-TP-SELL-P1-T100`) already rests as a live order; the cycle
issues zero placement requests. -/
theorem sync_intents_exact_match_no_placement_witness :
    (sync_intents ⟨"live", 1, 1, true, 0, 2, false, 0⟩
        (some [LiveOrder.mk (some "HAIDER-LIVE-TP-SELL-P1-T100") "sell"
          (some 100) none])
        [OrderIntent.mk "sell" 2 100 "TP"] (fun _ => none) (fun _ => true)
        (fun _ => PlaceOutcome.ok)).placements = [] := by
  have h1 : rhe ((100:ℚ)/1) = 100 := by norm_num [rhe]
  have h2 : rhe (100:ℚ) = 100 := by norm_num [rhe]
  have hshade : shade_price 100 "sell" 1 0 = 100 := by
    norm_num [shade_price, round_price, fmt10, rhe]
  have hcoid : gen_target_coid "live" "TP" "sell" 1
      (shade_price 100 "sell" 1 0) 1 = "HAIDER-LIVE-TP-SELL-P1-T100" := by
    rw [hshade]
    simp only [gen_target_coid, h1, h2, ite_self]
    decide
  apply (sync_intents_exact_match_no_placement
    ⟨"live", 1, 1, true, 0, 2, false, 0⟩
    (some [LiveOrder.mk (some "HAIDER-LIVE-TP-SELL-P1-T100") "sell"
      (some 100) none])
    [OrderIntent.mk "sell" 2 100 "TP"] (fun _ => none) (fun _ => true)
    (fun _ => PlaceOutcome.ok)).2
  intro it hit
  rw [List.mem_singleton] at hit
  subst hit
  refine ⟨LiveOrder.mk (some "HAIDER-LIVE-TP-SELL-P1-T100") "sell"
    (some 100) none, List.mem_singleton.mpr rfl, ?_⟩
  show some "HAIDER-LIVE-TP-SELL-P1-T100" = some (gen_target_coid "live"
    "TP" "sell" 1 (shade_price 100 "sell" 1 0) 1)
  rw [hcoid]

end HaiderBot
